import Mathlib

/-!
Verification development for the movie-elo repository.

The repository maintains per-user, per-group Elo ratings for items and
selects the next pair of items to compare.  This file embeds the rating
engine and the two matchup selectors shallowly in Lean, translated from
the TypeScript route handlers and the SQL rating function, and proves
properties of the embedded definitions.

Conventions of the embedding:
- JavaScript numbers are modelled as `JSNumber` (a finite rational or one
  of NaN / +Infinity / -Infinity); exact real arithmetic stands in for
  floating point in the rating formula.
- Values of unknown shape coming from the database or a request body are
  modelled as `RawValue` (number, string, null or undefined).
- Ambient behaviour that the code delegates to the JavaScript runtime
  (Number.parseFloat, Number.parseInt, String conversion of numbers) is a
  parameter `JSEnv`, so theorems quantify over every runtime behaviour.
- Each call to Math.random is an explicit rational draw in the interval
  [0, 1); a stream of draws is a function from call index to rational.
-/

namespace MovieElo

/-- A JavaScript number: a finite value (modelled exactly as a rational)
or one of the three non-finite values. -/
inductive JSNumber where
  | finite (q : ℚ)
  | nan
  | posInf
  | negInf
deriving DecidableEq, Repr

/-- Number.isFinite on the model. -/
def JSNumber.isFinite : JSNumber → Bool
  | .finite _ => true
  | _ => false

/-- Extract the finite value of a `JSNumber`, with a fallback for the
non-finite cases (used only where finiteness is separately proved). -/
def JSNumber.toRat (fallback : ℚ) : JSNumber → ℚ
  | .finite q => q
  | _ => fallback

/-- A loosely typed value read from the database or a request body:
`string | number | null | undefined`. -/
inductive RawValue where
  | num (x : JSNumber)
  | str (s : String)
  | null
  | undef
deriving DecidableEq, Repr

/-- Behaviour the code borrows from the JavaScript runtime.  `parseFloat`
models Number.parseFloat on a string (any number may come back);
`parseIntDec` models Number.parseInt(s, 10), which returns an integer or
NaN (here `none`); `numToStr` models String(x) for a number argument. -/
structure JSEnv where
  parseFloat : String → JSNumber
  parseIntDec : String → Option ℤ
  numToStr : JSNumber → String

/-- A fixed trivial runtime, used to obtain closed concrete statements. -/
def envZero : JSEnv :=
  { parseFloat := fun _ => .nan
    parseIntDec := fun _ => none
    numToStr := fun _ => "" }

/-- JavaScript truthiness test (negated) on a `number | null` value whose
number part is a finite integer: `!x` holds exactly for null and 0. -/
def jsFalsyOptInt : Option ℤ → Bool
  | none => true
  | some n => n = 0

/-- JavaScript truthiness test (negated) on a `string | null` value:
`!s` holds exactly for null and the empty string. -/
def jsFalsyStr : Option String → Bool
  | none => true
  | some s => s = ""

/-- `String(v ?? '')`: stringify a raw value after defaulting null and
undefined to the empty string. -/
def stringifyOrEmpty (env : JSEnv) : RawValue → String
  | .num x => env.numToStr x
  | .str s => s
  | .null => ""
  | .undef => ""

/-- `String(v ?? '0')`: stringify a raw value after defaulting null and
undefined to the string "0". -/
def stringifyOrZero (env : JSEnv) : RawValue → String
  | .num x => env.numToStr x
  | .str s => s
  | .null => "0"
  | .undef => "0"

/-- Math.trunc on a finite number: round toward zero. -/
def jsTrunc (q : ℚ) : ℤ := if 0 ≤ q then ⌊q⌋ else ⌈q⌉

/-- `parseInteger` from the user-ratings route: a finite number is
truncated with Math.trunc; a string with non-empty trim is fed to
Number.parseInt; everything else yields null. -/
def parseInteger (env : JSEnv) : RawValue → Option ℤ
  | .num (.finite q) => some (jsTrunc q)
  | .num _ => none
  | .str s => if s.trim.length = 0 then none else env.parseIntDec s.trim
  | _ => none

/-- `parseIntegerId` from the rate route: accepts a number only when it is
a finite integer (Number.isInteger and Number.isFinite), otherwise parses
the trimmed string when non-empty. -/
def parseIntegerId (env : JSEnv) : RawValue → Option ℤ
  | .num (.finite q) => if q.den = 1 then some q.num else none
  | .num _ => none
  | .str s => if s.trim.length = 0 then none else env.parseIntDec s.trim
  | _ => none

/-- The local `parseId` of `parseComparisonBody` in the group match route:
a finite number is truncated with Math.trunc; a string whose trim is
non-empty is fed to Number.parseInt (on the untrimmed string). -/
def parseId (env : JSEnv) : RawValue → Option ℤ
  | .num (.finite q) => some (jsTrunc q)
  | .num _ => none
  | .str s => if s.trim = "" then none else env.parseIntDec s
  | _ => none

/-- `parseComparisonBody` from the group match route: parse the two ids
and reject when either is falsy (missing or zero) or both are equal. -/
def parseComparisonBody (env : JSEnv) (winnerItemId loserItemId : RawValue) :
    Option (ℤ × ℤ) :=
  let winner := parseId env winnerItemId
  let loser := parseId env loserItemId
  if jsFalsyOptInt winner || jsFalsyOptInt loser || winner = loser then
    none
  else
    match winner, loser with
    | some w, some l => some (w, l)
    | _, _ => none

namespace MatchRoute

/-- The base rating used by the group match route (`DEFAULT_RATING`). -/
def DEFAULT_RATING : ℚ := 1200

/-- The cold-start threshold (`MIN_NEW_ITEM_COMPARISONS`). -/
def MIN_NEW_ITEM_COMPARISONS : ℤ := 5

/-- The discovery probability (`DISCOVERY_MATCH_PROBABILITY`). -/
def DISCOVERY_MATCH_PROBABILITY : ℚ := 15 / 100

/-- An item annotated with the requesting user rating state (`MatchItem`).
The metadata payload is omitted; it never influences selection. -/
structure MatchItem where
  itemId : ℤ
  name : String
  imagePath : Option String
  rating : ℚ
  comparisonCount : ℤ
deriving DecidableEq, Repr

/-- `normalizeRating`: a finite number is kept; a string with non-blank
trim is parsed and kept when finite; everything else becomes the default
rating. -/
def normalizeRating (env : JSEnv) : RawValue → JSNumber
  | .num x => if x.isFinite then x else .finite DEFAULT_RATING
  | .str s =>
      if s.trim = "" then .finite DEFAULT_RATING
      else
        let parsed := env.parseFloat s
        if parsed.isFinite then parsed else .finite DEFAULT_RATING
  | .null => .finite DEFAULT_RATING
  | .undef => .finite DEFAULT_RATING

/-- `randomIndex`: Math.floor(u * length) for one draw u of Math.random.
-/
def randomIndex (u : ℚ) (length : ℕ) : ℕ := (⌊u * length⌋).toNat

/-- `selectRandomPair`: draw a first index into the pool, remove that
element (Array.prototype.splice), then draw a second index into the
remainder.  Out-of-range indices (impossible for draws in [0,1)) yield
`none`. -/
def selectRandomPair (items : List MatchItem) (u₀ u₁ : ℚ) :
    Option (MatchItem × MatchItem) :=
  let firstIndex := randomIndex u₀ items.length
  match items[firstIndex]? with
  | none => none
  | some first =>
      let pool := items.eraseIdx firstIndex
      let secondIndex := randomIndex u₁ pool.length
      match pool[secondIndex]? with
      | none => none
      | some second => some (first, second)

/-- The ascending-by-rating comparator of the route, as a stable sort. -/
def sortByRating (items : List MatchItem) : List MatchItem :=
  items.mergeSort (fun a b => a.rating ≤ b.rating)

/-- The adjacent-pair scan of `selectAdjacentByRating`: walk the sorted
list, keeping the adjacent pair with the smallest rating gap (first
occurrence wins on ties). -/
def scanAdjacent (best : MatchItem × MatchItem) (smallestDiff : ℚ) :
    List MatchItem → MatchItem × MatchItem
  | current :: next :: rest =>
      let diff := |next.rating - current.rating|
      if diff < smallestDiff then scanAdjacent (current, next) diff (next :: rest)
      else scanAdjacent best smallestDiff (next :: rest)
  | _ => best

/-- `selectAdjacentByRating`: with at most two items return the first two;
otherwise sort by rating and take the adjacent pair with the smallest
gap. -/
def selectAdjacentByRating (items : List MatchItem) :
    Option (MatchItem × MatchItem) :=
  if items.length ≤ 2 then
    match items with
    | a :: b :: _ => some (a, b)
    | _ => none
  else
    match sortByRating items with
    | a :: b :: rest => some (scanAdjacent (a, b) |b.rating - a.rating| (b :: rest))
    | _ => none

/-- `selectDiscoveryPair`: with at most two items return the first two;
otherwise sort by rating and pair the lowest-rated with the
highest-rated item. -/
def selectDiscoveryPair (items : List MatchItem) :
    Option (MatchItem × MatchItem) :=
  if items.length ≤ 2 then
    match items with
    | a :: b :: _ => some (a, b)
    | _ => none
  else
    match (sortByRating items).head?, (sortByRating items).getLast? with
    | some first, some last => some (first, last)
    | _, _ => none

/-- `chooseMatchup` on an explicit stream of Math.random draws.  Returns
the chosen pair (or `none`) together with the number of draws consumed:
two draws in the cold-start branch, one for the discovery coin otherwise,
and zero when fewer than two items exist. -/
def chooseMatchup (items : List MatchItem) (u : ℕ → ℚ) :
    Option (MatchItem × MatchItem) × ℕ :=
  if items.length < 2 then (none, 0)
  else
    let lowHistoryItems :=
      items.filter (fun item => item.comparisonCount < MIN_NEW_ITEM_COMPARISONS)
    if 2 ≤ lowHistoryItems.length then
      (selectRandomPair lowHistoryItems (u 0) (u 1), 2)
    else if u 0 < DISCOVERY_MATCH_PROBABILITY then
      (selectDiscoveryPair items, 1)
    else
      (selectAdjacentByRating items, 1)

/-- A raw rating row of the route (`SupabaseRatingRow`): the rating comes
back as `string | number`. -/
structure RawRatingRow where
  item_id : ℤ
  rating : RawValue
  comparison_count : ℤ
deriving DecidableEq, Repr

/-- The rankable item payload of a group item row. -/
structure GroupItemInfo where
  id : ℤ
  name : String
  image_path : Option String
deriving DecidableEq, Repr

/-- A group item row: an item id and its (possibly missing) payload. -/
structure GroupItemRow where
  item_id : ℤ
  rankable_items : Option GroupItemInfo
deriving DecidableEq, Repr

/-- Lookup in the Map built by iterating `ratingMap.set` over the rows:
the last row with a matching id wins. -/
def lookupRating (rows : List RawRatingRow) (id : ℤ) : Option RawRatingRow :=
  rows.foldl (fun acc row => if row.item_id = id then some row else acc) none

/-- `buildMatchItems`: skip rows without a payload, then annotate each
item with the user rating state; an absent rating row contributes
`normalizeRating undefined` (the default rating) and count 0. -/
def buildMatchItems (env : JSEnv) (groupItems : List GroupItemRow)
    (ratingRows : List RawRatingRow) : List MatchItem :=
  groupItems.filterMap fun groupItem =>
    match groupItem.rankable_items with
    | none => none
    | some info =>
        let ratingRow := lookupRating ratingRows groupItem.item_id
        some
          { itemId := info.id
            name := info.name
            imagePath := info.image_path
            rating :=
              (normalizeRating env
                (match ratingRow with
                 | some row => row.rating
                 | none => .undef)).toRat DEFAULT_RATING
            comparisonCount :=
              match ratingRow with
              | some row => row.comparison_count
              | none => 0 }

end MatchRoute

namespace ComparisonRoute

/-- The base rating of the comparisons matchup route (`BASE_RATING`). -/
def BASE_RATING : ℚ := 1500

/-- A comparison candidate of the route. -/
structure Candidate where
  id : ℤ
  name : String
  imagePath : Option String
  rating : ℚ
  comparisonCount : ℤ
deriving DecidableEq, Repr

/-- The sort order of `selectMatchup`: ascending comparison count, ties
broken by distance of the rating from the base rating. -/
def candidateLe (a b : Candidate) : Bool :=
  a.comparisonCount < b.comparisonCount ∨
    (a.comparisonCount = b.comparisonCount ∧
      |a.rating - BASE_RATING| ≤ |b.rating - BASE_RATING|)

/-- The opponent scan of `selectMatchup`: keep the remaining item that
minimizes the comparison-count gap, ties broken by the rating gap. -/
def pickOpponent (firstItem chosen : Candidate) (bestComparisonGap : ℤ)
    (bestRatingGap : ℚ) : List Candidate → Candidate
  | [] => chosen
  | contender :: rest =>
      let comparisonGap := |contender.comparisonCount - firstItem.comparisonCount|
      let ratingGap := |contender.rating - firstItem.rating|
      if comparisonGap < bestComparisonGap ∨
          (comparisonGap = bestComparisonGap ∧ ratingGap < bestRatingGap) then
        pickOpponent firstItem contender comparisonGap ratingGap rest
      else
        pickOpponent firstItem chosen bestComparisonGap bestRatingGap rest

/-- `selectMatchup` of the comparisons route: sort by
(comparisonCount, baseline distance), draw one item at random from the
first min(5, n) entries, then choose the closest opponent among the
items with a different id. -/
def selectMatchup (items : List Candidate) (u₀ : ℚ) :
    Option (Candidate × Candidate) :=
  if items.length < 2 then none
  else
    let sortedByComparisons := items.mergeSort candidateLe
    let poolSize := min 5 sortedByComparisons.length
    let candidatePool := sortedByComparisons.take poolSize
    let firstIndex := MatchRoute.randomIndex u₀ candidatePool.length
    match candidatePool[firstIndex]? with
    | none => none
    | some firstItem =>
        let remainingItems := items.filter (fun item => item.id ≠ firstItem.id)
        match remainingItems with
        | [] => none
        | chosen :: rest =>
            some (firstItem,
              pickOpponent firstItem chosen
                |chosen.comparisonCount - firstItem.comparisonCount|
                |chosen.rating - firstItem.rating| rest)

/-- The candidate construction of the route: an item with no stored row
defaults to the base rating and count 0. -/
def buildCandidates (items : List (ℤ × String × Option String))
    (ratingMap : ℤ → Option (ℚ × ℤ)) : List Candidate :=
  items.map fun item =>
    match ratingMap item.1 with
    | some existing =>
        { id := item.1, name := item.2.1, imagePath := item.2.2
          rating := existing.1, comparisonCount := existing.2 }
    | none =>
        { id := item.1, name := item.2.1, imagePath := item.2.2
          rating := BASE_RATING, comparisonCount := 0 }

end ComparisonRoute

namespace RateRoute

/-- The base rating of the rate route (`BASE_RATING`). -/
noncomputable def BASE_RATING : ℝ := 1500

/-- `selectKFactor`: the tiered K-factor, by the own pre-comparison count
of a player. -/
def selectKFactor (comparisonCount : ℤ) : ℚ :=
  if comparisonCount ≤ 10 then 40
  else if comparisonCount ≤ 30 then 20
  else 10

/-- `calculateExpectedScore`: the Elo logistic expectation. -/
noncomputable def calculateExpectedScore (playerRating opponentRating : ℝ) : ℝ :=
  let exponent := (opponentRating - playerRating) / 400
  let denominator := 1 + (10 : ℝ) ^ exponent
  1 / denominator

/-- `roundRating`: Math.round(value * 10000) / 10000; Math.round is
floor(x + 1/2), which is exactly the Mathlib `round`. -/
noncomputable def roundRating (value : ℝ) : ℝ :=
  ((round (value * 10000) : ℤ) : ℝ) / 10000

/-- A stored rating state for one item (`ExistingRating`). -/
structure ExistingRating where
  rating : ℝ
  comparisonCount : ℤ

/-- The pure rating update of the rate route: expected scores from the
two ratings, a K-factor from the own count of each player, the rounded
new ratings, and both counts incremented by one. -/
noncomputable def updateRatings (winner loser : ExistingRating) :
    ExistingRating × ExistingRating :=
  let winnerExpected := calculateExpectedScore winner.rating loser.rating
  let loserExpected := calculateExpectedScore loser.rating winner.rating
  let winnerK : ℝ := (selectKFactor winner.comparisonCount : ℚ)
  let loserK : ℝ := (selectKFactor loser.comparisonCount : ℚ)
  (⟨roundRating (winner.rating + winnerK * (1 - winnerExpected)),
      winner.comparisonCount + 1⟩,
    ⟨roundRating (loser.rating + loserK * (0 - loserExpected)),
      loser.comparisonCount + 1⟩)

/-- The per-user rating store, keyed by item id. -/
def Store : Type := ℤ → Option ExistingRating

/-- The lazy default of the rate route: an item with no stored row reads
as the base rating with count 0. -/
noncomputable def existingOrDefault (store : Store) (id : ℤ) : ExistingRating :=
  (store id).getD ⟨BASE_RATING, 0⟩

/-- The row normalization of the rate route (reading
`item_id, rating, comparison_count` rows): a non-number rating is parsed
from its string form and replaced by the base rating when not finite; a
non-number count is parsed with Number.parseInt and replaced by 0 when
not finite. -/
def normalizeRow (env : JSEnv) (rating comparison_count : RawValue) :
    JSNumber × JSNumber :=
  let ratingValue :=
    match rating with
    | .num x => x
    | v => env.parseFloat (stringifyOrEmpty env v)
  let comparisonValue :=
    match comparison_count with
    | .num x => x
    | v =>
        match env.parseIntDec (stringifyOrZero env v) with
        | some n => .finite n
        | none => .nan
  (if ratingValue.isFinite then ratingValue else .finite 1500,
    if comparisonValue.isFinite then comparisonValue else .finite 0)

/-- The response of the rate route handler, after authentication. -/
inductive RateResponse where
  | ok (winnerItemId : ℤ) (winnerRating : ℝ) (winnerComparisonCount : ℤ)
      (loserItemId : ℤ) (loserRating : ℝ) (loserComparisonCount : ℤ)
  | err (status : ℕ) (msg : String)

/-- The rate route POST handler, from body parsing to the upsert: parse
the ids, reject falsy ids, reject equal ids, check group membership,
read both states (defaulting absent rows), run the rating update and
upsert both rows. -/
noncomputable def ratePost (env : JSEnv) (groupItems : List ℤ) (store : Store)
    (groupIdRaw winnerRaw loserRaw : RawValue) : RateResponse × Store :=
  let groupId : Option String :=
    match groupIdRaw with
    | .str s => some s
    | _ => none
  let winnerId := parseIntegerId env winnerRaw
  let loserId := parseIntegerId env loserRaw
  if jsFalsyStr groupId || jsFalsyOptInt winnerId || jsFalsyOptInt loserId then
    (.err 400 "Provide groupId, winnerId, and loserId to record the comparison result.",
      store)
  else
    match winnerId, loserId with
    | some winner, some loser =>
        if winner = loser then
          (.err 400 "winnerId and loserId must reference different items.", store)
        else if ¬ (winner ∈ groupItems ∧ loser ∈ groupItems) then
          (.err 400 "Both items must belong to the specified ranking group.", store)
        else
          let winnerExisting := existingOrDefault store winner
          let loserExisting := existingOrDefault store loser
          let updated := updateRatings winnerExisting loserExisting
          let newStore : Store := fun id =>
            if id = winner then some updated.1
            else if id = loser then some updated.2
            else store id
          (.ok winner updated.1.rating updated.1.comparisonCount
              loser updated.2.rating updated.2.comparisonCount,
            newStore)
    | _, _ =>
        (.err 400 "Provide groupId, winnerId, and loserId to record the comparison result.",
          store)

end RateRoute

namespace UserRatingsRoute

/-- The base rating of the user-ratings route (`BASE_RATING`). -/
def BASE_RATING : ℚ := 1500

/-- A raw rating row as read by the route. -/
structure RawRatingRow where
  item_id : RawValue
  rating : RawValue
  comparison_count : RawValue

/-- A parsed rating row; the rating and count are kept as JavaScript
numbers so that finiteness is a statement, not a typing assumption. -/
structure ParsedRatingRow where
  itemId : ℤ
  rating : JSNumber
  comparisonCount : JSNumber

/-- `parseRatingRow`: reject a row whose item id does not parse; parse
the rating (via String conversion when it is not a number) and replace a
non-finite result by the base rating; parse the count likewise and
replace a non-finite result by 0. -/
def parseRatingRow (env : JSEnv) (row : RawRatingRow) : Option ParsedRatingRow :=
  match parseInteger env row.item_id with
  | none => none
  | some itemId =>
      let ratingValue :=
        match row.rating with
        | .num x => x
        | v => env.parseFloat (stringifyOrEmpty env v)
      let comparisonValue :=
        match row.comparison_count with
        | .num x => x
        | v =>
            match env.parseIntDec (stringifyOrZero env v) with
            | some n => JSNumber.finite n
            | none => JSNumber.nan
      some
        { itemId := itemId
          rating := if ratingValue.isFinite then ratingValue else .finite BASE_RATING
          comparisonCount :=
            if comparisonValue.isFinite then comparisonValue else .finite 0 }

end UserRatingsRoute

namespace Sql

/-- The default base rating of the SQL rating function
(`p_base_rating numeric default 1200`). -/
noncomputable def defaultBaseRating : ℝ := 1200

/-- The K-factor cases of the SQL rating function. -/
noncomputable def kFactor (count : ℤ) (provisionalK establishedK masterK : ℝ) : ℝ :=
  if count ≤ 10 then provisionalK
  else if count ≤ 30 then establishedK
  else masterK

/-- `round(x, 4)` of PostgreSQL numeric: round half away from zero. -/
noncomputable def round4 (x : ℝ) : ℝ :=
  if 0 ≤ x then ((⌊x * 10000 + 1 / 2⌋ : ℤ) : ℝ) / 10000
  else -(((⌊(-x) * 10000 + 1 / 2⌋ : ℤ) : ℝ) / 10000)

/-- Insert-if-absent of the SQL function (`on conflict do nothing`). -/
noncomputable def insertIfAbsent (baseRating : ℝ) (store : RateRoute.Store)
    (id : ℤ) : RateRoute.Store :=
  fun j => if j = id then some ((store id).getD ⟨baseRating, 0⟩) else store j

/-- The output row of the SQL rating function. -/
structure SqlResultRow where
  winner_item_id : ℤ
  winner_rating : ℝ
  winner_comparison_count : ℤ
  loser_item_id : ℤ
  loser_rating : ℝ
  loser_comparison_count : ℤ

/-- `process_group_movie_comparison`: raise on equal ids, raise when
either item is outside the group, lazily create both rows at the base
rating, then apply the Elo update with the tiered K parameters and write
both rows back rounded to 4 decimal places.  An exception (`.error`)
aborts the transaction, leaving the store unchanged. -/
noncomputable def processComparison (store : RateRoute.Store) (groupItems : List ℤ)
    (winnerId loserId : ℤ)
    (baseRating provisionalK establishedK masterK : ℝ) :
    Except String (RateRoute.Store × SqlResultRow) :=
  if winnerId = loserId then
    .error "Winner and loser must reference different items."
  else if winnerId ∉ groupItems then
    .error "Winner item does not belong to group."
  else if loserId ∉ groupItems then
    .error "Loser item does not belong to group."
  else
    let store₁ := insertIfAbsent baseRating store winnerId
    let store₂ := insertIfAbsent baseRating store₁ loserId
    let winner := (store₂ winnerId).getD ⟨baseRating, 0⟩
    let loser := (store₂ loserId).getD ⟨baseRating, 0⟩
    let expectedWinner := 1 / (1 + (10 : ℝ) ^ ((loser.rating - winner.rating) / 400))
    let expectedLoser := 1 / (1 + (10 : ℝ) ^ ((winner.rating - loser.rating) / 400))
    let winnerK := kFactor winner.comparisonCount provisionalK establishedK masterK
    let loserK := kFactor loser.comparisonCount provisionalK establishedK masterK
    let updatedWinner : RateRoute.ExistingRating :=
      ⟨round4 (winner.rating + winnerK * (1 - expectedWinner)),
        winner.comparisonCount + 1⟩
    let updatedLoser : RateRoute.ExistingRating :=
      ⟨round4 (loser.rating + loserK * (0 - expectedLoser)),
        loser.comparisonCount + 1⟩
    let store₃ : RateRoute.Store := fun j =>
      if j = winnerId then some updatedWinner
      else if j = loserId then some updatedLoser
      else store₂ j
    .ok (store₃,
      ⟨winnerId, updatedWinner.rating, updatedWinner.comparisonCount,
        loserId, updatedLoser.rating, updatedLoser.comparisonCount⟩)

end Sql

/-! ### Helper lemmas -/

/-- A draw in [0, 1) yields an in-range index. -/
theorem randomIndex_lt (u : ℚ) (n : ℕ) (h₀ : 0 ≤ u) (h₁ : u < 1) (hn : 0 < n) :
    MatchRoute.randomIndex u n < n := by
  unfold MatchRoute.randomIndex
  have hlt : ⌊u * (n : ℚ)⌋ < (n : ℤ) := by
    rw [Int.floor_lt]
    push_cast
    calc u * n < 1 * n := by
          exact mul_lt_mul_of_pos_right h₁ (by exact_mod_cast hn)
      _ = n := one_mul _
  have hge : (0 : ℤ) ≤ ⌊u * (n : ℚ)⌋ := by
    rw [Int.floor_nonneg]
    positivity
  omega

/-- A list of length at least two starts with two elements. -/
theorem exists_cons_cons {α : Type _} (l : List α) (h : 2 ≤ l.length) :
    ∃ a b t, l = a :: b :: t := by
  match l with
  | [] => simp at h
  | [a] => simp at h
  | a :: b :: t => exact ⟨a, b, t, rfl⟩

/-- In a duplicate-free list, the element at an index does not reappear
after that index is erased. -/
theorem nodup_getElem_ne_of_mem_eraseIdx {α : Type _} (m : List α) (hnd : m.Nodup)
    (i : ℕ) (hi : i < m.length) (x : α) (hx : x ∈ m.eraseIdx i) : m[i] ≠ x := by
  induction m generalizing i with
  | nil => simp at hi
  | cons a t ih =>
      cases i with
      | zero =>
          rw [List.eraseIdx_cons_zero] at hx
          have ha : a ∉ t := (List.nodup_cons.mp hnd).1
          have hget : (a :: t)[0] = a := rfl
          rw [hget]
          intro he
          subst he
          exact ha hx
      | succ k =>
          rw [List.eraseIdx_cons_succ] at hx
          have hk : k < t.length := by simpa using hi
          have htk : (a :: t)[k + 1] = t[k] := by simp
          rw [htk]
          rcases List.mem_cons.mp hx with rfl | hx'
          · intro he
            exact (List.nodup_cons.mp hnd).1 (he ▸ List.getElem_mem hk)
          · exact ih (List.nodup_cons.mp hnd).2 k hk hx'

/-- Mapping commutes with erasing an index. -/
theorem map_eraseIdx_comm {α β : Type _} (f : α → β) (l : List α) (i : ℕ) :
    (l.eraseIdx i).map f = (l.map f).eraseIdx i := by
  induction l generalizing i with
  | nil => simp
  | cons a t ih =>
      cases i with
      | zero => simp
      | succ k => simpa using ih k

/-- In a list whose images under `f` are duplicate-free, the element at
an index and any element of the list with that index erased have
different images. -/
theorem image_ne_of_mem_eraseIdx {α β : Type _} (f : α → β) (l : List α)
    (hnd : (l.map f).Nodup) (i : ℕ) (hi : i < l.length) (x : α)
    (hx : x ∈ l.eraseIdx i) : f l[i] ≠ f x := by
  have hmem : f x ∈ (l.map f).eraseIdx i := by
    rw [← map_eraseIdx_comm]
    exact List.mem_map_of_mem f hx
  have hil : i < (l.map f).length := by simpa using hi
  have hget : (l.map f)[i] = f l[i] := by simp
  have := nodup_getElem_ne_of_mem_eraseIdx (l.map f) hnd i hil (f x) hmem
  rwa [hget] at this

/-- With in-range draws, `selectRandomPair` returns two members of the
input, and they carry different ids whenever the input ids are
duplicate-free. -/
theorem selectRandomPair_mem (items : List MatchRoute.MatchItem) (u₀ u₁ : ℚ)
    (h₀ : 0 ≤ u₀) (h₀' : u₀ < 1) (h₁ : 0 ≤ u₁) (h₁' : u₁ < 1)
    (h2 : 2 ≤ items.length) :
    ∃ a b, MatchRoute.selectRandomPair items u₀ u₁ = some (a, b) ∧
      a ∈ items ∧ b ∈ items ∧
      ((items.map MatchRoute.MatchItem.itemId).Nodup → a.itemId ≠ b.itemId) := by
  have hi : MatchRoute.randomIndex u₀ items.length < items.length :=
    randomIndex_lt u₀ items.length h₀ h₀' (by omega)
  have hpl : (items.eraseIdx (MatchRoute.randomIndex u₀ items.length)).length =
      items.length - 1 := by
    rw [List.length_eraseIdx]
    simp [hi]
  have hj : MatchRoute.randomIndex u₁
        (items.eraseIdx (MatchRoute.randomIndex u₀ items.length)).length <
      (items.eraseIdx (MatchRoute.randomIndex u₀ items.length)).length := by
    apply randomIndex_lt _ _ h₁ h₁'
    omega
  refine ⟨items[MatchRoute.randomIndex u₀ items.length],
    (items.eraseIdx (MatchRoute.randomIndex u₀ items.length))[MatchRoute.randomIndex u₁
      (items.eraseIdx (MatchRoute.randomIndex u₀ items.length)).length],
    ?_, List.getElem_mem hi,
    List.eraseIdx_subset items (MatchRoute.randomIndex u₀ items.length)
      (List.getElem_mem hj), ?_⟩
  · unfold MatchRoute.selectRandomPair
    dsimp only
    rw [List.getElem?_eq_getElem hi]
    dsimp only
    rw [List.getElem?_eq_getElem hj]
  · intro hnd
    exact image_ne_of_mem_eraseIdx MatchRoute.MatchItem.itemId items hnd
      (MatchRoute.randomIndex u₀ items.length) hi _ (List.getElem_mem hj)

/-- The expected score is strictly between 0 and 1. -/
theorem calculateExpectedScore_mem_Ioo (p o : ℝ) :
    RateRoute.calculateExpectedScore p o ∈ Set.Ioo (0 : ℝ) 1 := by
  unfold RateRoute.calculateExpectedScore
  have hpos : (0 : ℝ) < (10 : ℝ) ^ ((o - p) / 400) :=
    Real.rpow_pos_of_pos (by norm_num) _
  constructor
  · positivity
  · rw [div_lt_one (by positivity)]
    linarith

/-- Every K tier is positive. -/
theorem selectKFactor_pos (c : ℤ) : 0 < RateRoute.selectKFactor c := by
  unfold RateRoute.selectKFactor
  split_ifs <;> norm_num

/-- `round` is monotone. -/
theorem round_monotone {a b : ℝ} (h : a ≤ b) : round a ≤ round b := by
  rw [round_eq, round_eq]
  exact Int.floor_le_floor (by linarith)

/-- Rounding a 4-decimal fixed-point value moved by a non-negative delta
does not go below the value. -/
theorem roundRating_ge_of_fixedPoint (r δ : ℝ) (n : ℤ) (hr : r * 10000 = n)
    (hδ : 0 ≤ δ) : r ≤ RateRoute.roundRating (r + δ) := by
  unfold RateRoute.roundRating
  have harg : (n : ℝ) ≤ (r + δ) * 10000 := by
    have hexp : (r + δ) * 10000 = r * 10000 + δ * 10000 := by ring
    rw [hexp, hr]
    linarith
  have hround : (n : ℤ) ≤ round ((r + δ) * 10000) := by
    calc (n : ℤ) = round ((n : ℤ) : ℝ) := (round_intCast n).symm
      _ ≤ round ((r + δ) * 10000) := round_monotone harg
  have hcast : ((n : ℝ)) ≤ ((round ((r + δ) * 10000) : ℤ) : ℝ) := by
    exact_mod_cast hround
  have hrn : r = (n : ℝ) / 10000 := by
    rw [eq_div_iff (by norm_num : (10000 : ℝ) ≠ 0)]
    exact hr
  linarith

/-- Rounding a 4-decimal fixed-point value moved by a non-positive delta
does not go above the value. -/
theorem roundRating_le_of_fixedPoint (r δ : ℝ) (n : ℤ) (hr : r * 10000 = n)
    (hδ : δ ≤ 0) : RateRoute.roundRating (r + δ) ≤ r := by
  unfold RateRoute.roundRating
  have harg : (r + δ) * 10000 ≤ (n : ℝ) := by
    have hexp : (r + δ) * 10000 = r * 10000 + δ * 10000 := by ring
    rw [hexp, hr]
    linarith
  have hround : round ((r + δ) * 10000) ≤ (n : ℤ) := by
    calc round ((r + δ) * 10000) ≤ round ((n : ℤ) : ℝ) := round_monotone harg
      _ = n := round_intCast n
  have hcast : ((round ((r + δ) * 10000) : ℤ) : ℝ) ≤ ((n : ℝ)) := by
    exact_mod_cast hround
  have hrn : r = (n : ℝ) / 10000 := by
    rw [eq_div_iff (by norm_num : (10000 : ℝ) ≠ 0)]
    exact hr
  linarith

/-! ### Claim theorems -/

/-- Claim C5: for all ratings, the winner expected score and the loser
expected score sum to exactly 1. -/
theorem claim_C5_zero_sum (Rw Rl : ℝ) :
    RateRoute.calculateExpectedScore Rw Rl + RateRoute.calculateExpectedScore Rl Rw = 1 := by
  unfold RateRoute.calculateExpectedScore
  dsimp only
  have hrw : (Rw - Rl) / 400 = -((Rl - Rw) / 400) := by ring
  rw [hrw, Real.rpow_neg (by norm_num : (0 : ℝ) ≤ 10)]
  have hpos : (0 : ℝ) < (10 : ℝ) ^ ((Rl - Rw) / 400) :=
    Real.rpow_pos_of_pos (by norm_num) _
  have h₁ : (1 : ℝ) + (10 : ℝ) ^ ((Rl - Rw) / 400) ≠ 0 := by positivity
  have h₂ : (1 : ℝ) + ((10 : ℝ) ^ ((Rl - Rw) / 400))⁻¹ ≠ 0 := by positivity
  field_simp
  ring

/-- Claim C2: on both comparison paths the K tiers take the boundary
values 40/20/20/10 at counts 10/11/30/31: in the rate route via
`selectKFactor`, and in the SQL rating function via its K CASE at the
default parameters 40/20/10 (the match route passes no overrides), which
agrees with `selectKFactor` at every count.  Moreover each player K is
chosen from that player's own pre-comparison count, independently per
player: in `updateRatings` the state of each player depends on the
opponent only through the opponent rating, and in the SQL function the
winner output row is unchanged when only the loser count changes, and
symmetrically. -/
theorem claim_C2_k_tiers :
    (RateRoute.selectKFactor 10 = 40 ∧ RateRoute.selectKFactor 11 = 20 ∧
      RateRoute.selectKFactor 30 = 20 ∧ RateRoute.selectKFactor 31 = 10) ∧
    (Sql.kFactor 10 40 20 10 = 40 ∧ Sql.kFactor 11 40 20 10 = 20 ∧
      Sql.kFactor 30 40 20 10 = 20 ∧ Sql.kFactor 31 40 20 10 = 10) ∧
    (∀ c : ℤ, Sql.kFactor c 40 20 10 = ((RateRoute.selectKFactor c : ℚ) : ℝ)) ∧
    (∀ (winner : RateRoute.ExistingRating) (r : ℝ) (c c' : ℤ),
      (RateRoute.updateRatings winner ⟨r, c⟩).1 =
        (RateRoute.updateRatings winner ⟨r, c'⟩).1) ∧
    (∀ (loser : RateRoute.ExistingRating) (r : ℝ) (c c' : ℤ),
      (RateRoute.updateRatings ⟨r, c⟩ loser).2 =
        (RateRoute.updateRatings ⟨r, c'⟩ loser).2) ∧
    (∀ (gis : List ℤ) (w l : ℤ) (rw rl : ℝ) (cw cl cl' : ℤ) (b pk ek mk : ℝ),
      (Sql.processComparison
          (fun j => if j = w then some ⟨rw, cw⟩
            else if j = l then some ⟨rl, cl⟩ else none)
          gis w l b pk ek mk).map
        (fun p => (p.2.winner_item_id, p.2.winner_rating,
          p.2.winner_comparison_count)) =
      (Sql.processComparison
          (fun j => if j = w then some ⟨rw, cw⟩
            else if j = l then some ⟨rl, cl'⟩ else none)
          gis w l b pk ek mk).map
        (fun p => (p.2.winner_item_id, p.2.winner_rating,
          p.2.winner_comparison_count))) ∧
    (∀ (gis : List ℤ) (w l : ℤ) (rw rl : ℝ) (cw cw' cl : ℤ) (b pk ek mk : ℝ),
      (Sql.processComparison
          (fun j => if j = w then some ⟨rw, cw⟩
            else if j = l then some ⟨rl, cl⟩ else none)
          gis w l b pk ek mk).map
        (fun p => (p.2.loser_item_id, p.2.loser_rating,
          p.2.loser_comparison_count)) =
      (Sql.processComparison
          (fun j => if j = w then some ⟨rw, cw'⟩
            else if j = l then some ⟨rl, cl⟩ else none)
          gis w l b pk ek mk).map
        (fun p => (p.2.loser_item_id, p.2.loser_rating,
          p.2.loser_comparison_count))) := by
  refine ⟨⟨by decide, by decide, by decide, by decide⟩,
    ⟨by norm_num [Sql.kFactor], by norm_num [Sql.kFactor],
      by norm_num [Sql.kFactor], by norm_num [Sql.kFactor]⟩,
    ?_, ?_, ?_, ?_, ?_⟩
  · intro c
    unfold Sql.kFactor RateRoute.selectKFactor
    split_ifs <;> norm_num
  · intro winner r c c'
    rfl
  · intro loser r c c'
    rfl
  · intro gis w l rw rl cw cl cl' b pk ek mk
    by_cases hwl : w = l
    · simp [Sql.processComparison, hwl]
    · by_cases hw : w ∈ gis
      · by_cases hl : l ∈ gis
        · simp [Sql.processComparison, Sql.insertIfAbsent, hwl, Ne.symm hwl,
            hw, hl, Except.map]
        · simp [Sql.processComparison, hwl, hw, hl]
      · simp [Sql.processComparison, hwl, hw]
  · intro gis w l rw rl cw cw' cl b pk ek mk
    by_cases hwl : w = l
    · simp [Sql.processComparison, hwl]
    · by_cases hw : w ∈ gis
      · by_cases hl : l ∈ gis
        · simp [Sql.processComparison, Sql.insertIfAbsent, hwl, Ne.symm hwl,
            hw, hl, Except.map]
        · simp [Sql.processComparison, hwl, hw, hl]
      · simp [Sql.processComparison, hwl, hw]

/-- Claim C9: at both comparison-recording endpoints a winner or loser id
equal to 0 is rejected by the truthiness check exactly like a missing id:
the rate route answers with the 400 "provide ids" error and an untouched
store, and the group match route body parser yields null. -/
theorem claim_C9_zero_id_rejected :
    (∀ (env : JSEnv) (gis : List ℤ) (store : RateRoute.Store)
        (g lRaw : RawValue),
      RateRoute.ratePost env gis store g (.num (.finite 0)) lRaw =
        (.err 400 "Provide groupId, winnerId, and loserId to record the comparison result.",
          store)) ∧
    (∀ (env : JSEnv) (gis : List ℤ) (store : RateRoute.Store)
        (g wRaw : RawValue),
      RateRoute.ratePost env gis store g wRaw (.num (.finite 0)) =
        (.err 400 "Provide groupId, winnerId, and loserId to record the comparison result.",
          store)) ∧
    (∀ (env : JSEnv) (gis : List ℤ) (store : RateRoute.Store)
        (g lRaw : RawValue),
      RateRoute.ratePost env gis store g RawValue.undef lRaw =
        (.err 400 "Provide groupId, winnerId, and loserId to record the comparison result.",
          store)) ∧
    (∀ (env : JSEnv) (lRaw : RawValue),
      parseComparisonBody env (.num (.finite 0)) lRaw = none) ∧
    (∀ (env : JSEnv) (wRaw : RawValue),
      parseComparisonBody env wRaw (.num (.finite 0)) = none) ∧
    (∀ (env : JSEnv) (lRaw : RawValue),
      parseComparisonBody env RawValue.undef lRaw = none) := by
  have hid : ∀ env : JSEnv, parseIntegerId env (.num (.finite 0)) = some 0 := by
    intro env
    rfl
  have hpid : ∀ env : JSEnv, parseId env (.num (.finite 0)) = some 0 := by
    intro env
    rfl
  refine ⟨?_, ?_, ?_, ?_, ?_, ?_⟩
  · intro env gis store g lRaw
    simp [RateRoute.ratePost, hid, jsFalsyOptInt]
  · intro env gis store g wRaw
    simp [RateRoute.ratePost, hid, jsFalsyOptInt]
  · intro env gis store g lRaw
    simp [RateRoute.ratePost, parseIntegerId, jsFalsyOptInt]
  · intro env lRaw
    simp [parseComparisonBody, hpid, jsFalsyOptInt]
  · intro env wRaw
    simp [parseComparisonBody, hpid, jsFalsyOptInt]
  · intro env lRaw
    simp [parseComparisonBody, parseId, jsFalsyOptInt]

/-- Claim C10: every normalization path yields a finite number: the match
route `normalizeRating` is always finite and maps non-finite numbers to
the default rating, the rate route row normalization yields a finite
rating and count, and a parsed user-ratings row carries a finite rating
and count, for every runtime behaviour of parseFloat and parseInt. -/
theorem claim_C10_normalization_finite :
    (∀ (env : JSEnv) (v : RawValue),
      (MatchRoute.normalizeRating env v).isFinite = true) ∧
    (∀ env : JSEnv,
      MatchRoute.normalizeRating env (.num .nan) =
        .finite MatchRoute.DEFAULT_RATING) ∧
    (∀ (env : JSEnv) (rating comparison_count : RawValue),
      (RateRoute.normalizeRow env rating comparison_count).1.isFinite = true ∧
      (RateRoute.normalizeRow env rating comparison_count).2.isFinite = true) ∧
    (∀ (env : JSEnv) (row : UserRatingsRoute.RawRatingRow)
        (parsed : UserRatingsRoute.ParsedRatingRow),
      UserRatingsRoute.parseRatingRow env row = some parsed →
      parsed.rating.isFinite = true ∧ parsed.comparisonCount.isFinite = true) := by
  refine ⟨?_, ?_, ?_, ?_⟩
  · intro env v
    cases v with
    | num x => cases x <;> simp [MatchRoute.normalizeRating, JSNumber.isFinite]
    | str s =>
        dsimp only [MatchRoute.normalizeRating]
        split_ifs with h₁ h₂ <;> simp_all [JSNumber.isFinite]
    | null => rfl
    | undef => rfl
  · intro env
    rfl
  · intro env rating comparison_count
    constructor
    · dsimp only [RateRoute.normalizeRow]
      split_ifs with h <;> simp_all [JSNumber.isFinite]
    · dsimp only [RateRoute.normalizeRow]
      split_ifs with h <;> simp_all [JSNumber.isFinite]
  · intro env row parsed h
    dsimp only [UserRatingsRoute.parseRatingRow] at h
    cases hpi : parseInteger env row.item_id with
    | none => rw [hpi] at h; exact absurd h (by simp)
    | some n =>
        rw [hpi] at h
        have hp := (Option.some.injEq _ _).mp h
        subst hp
        constructor
        · dsimp only
          split_ifs with hf <;> simp_all [JSNumber.isFinite]
        · dsimp only
          split_ifs with hf <;> simp_all [JSNumber.isFinite]

/-- Claim C10 witness: the last conjunct applied to a concrete row whose
rating string does not parse and whose count is null. -/
theorem claim_C10_witness :
    (⟨1, .finite UserRatingsRoute.BASE_RATING, .finite 0⟩ :
        UserRatingsRoute.ParsedRatingRow).rating.isFinite = true ∧
    (⟨1, .finite UserRatingsRoute.BASE_RATING, .finite 0⟩ :
        UserRatingsRoute.ParsedRatingRow).comparisonCount.isFinite = true :=
  claim_C10_normalization_finite.2.2.2 envZero
    ⟨.num (.finite 1), .str "x", .null⟩ _ rfl

/-- Claim C8: a comparison whose winner and loser coincide fails fast
with the distinct-items validation error before any rating computation,
and the store is untouched: the rate route answers 400 with the original
store, the group match route body parser yields null, and the SQL
function raises before its inserts. -/
theorem claim_C8_fail_fast :
    (∀ (env : JSEnv) (gis : List ℤ) (store : RateRoute.Store) (s : String)
        (wRaw lRaw : RawValue) (n : ℤ),
      s ≠ "" → n ≠ 0 →
      parseIntegerId env wRaw = some n → parseIntegerId env lRaw = some n →
      RateRoute.ratePost env gis store (.str s) wRaw lRaw =
        (.err 400 "winnerId and loserId must reference different items.", store)) ∧
    (∀ (env : JSEnv) (wRaw lRaw : RawValue) (n : ℤ),
      parseId env wRaw = some n → parseId env lRaw = some n →
      parseComparisonBody env wRaw lRaw = none) ∧
    (∀ (store : RateRoute.Store) (gis : List ℤ) (itemId : ℤ) (b pk ek mk : ℝ),
      Sql.processComparison store gis itemId itemId b pk ek mk =
        .error "Winner and loser must reference different items.") := by
  refine ⟨?_, ?_, ?_⟩
  · intro env gis store s wRaw lRaw n hs hn hw hl
    simp [RateRoute.ratePost, hw, hl, jsFalsyStr, jsFalsyOptInt, hs, hn]
  · intro env wRaw lRaw n hw hl
    by_cases hn : n = 0
    · subst hn
      simp [parseComparisonBody, hw, hl, jsFalsyOptInt]
    · simp [parseComparisonBody, hw, hl, jsFalsyOptInt, hn]
  · intro store gis itemId b pk ek mk
    unfold Sql.processComparison
    rw [if_pos rfl]

/-- Claim C8 witness: the three parts at a concrete self-comparison. -/
theorem claim_C8_witness :
    RateRoute.ratePost envZero [] (fun _ => none) (.str "g")
        (.num (.finite 1)) (.num (.finite 1)) =
      (.err 400 "winnerId and loserId must reference different items.",
        fun _ => none) ∧
    parseComparisonBody envZero (.num (.finite 1)) (.num (.finite 1)) = none ∧
    Sql.processComparison (fun _ => none) [] 1 1 Sql.defaultBaseRating 40 20 10 =
      .error "Winner and loser must reference different items." :=
  ⟨claim_C8_fail_fast.1 envZero [] (fun _ => none) "g" _ _ 1 (by decide)
      (by decide) rfl rfl,
    claim_C8_fail_fast.2.1 envZero _ _ 1 rfl rfl,
    claim_C8_fail_fast.2.2 (fun _ => none) [] 1 Sql.defaultBaseRating 40 20 10⟩

/-- Claim C1 counterexample: within one deployment the group match route
substitutes 1200 for an item with no stored row while the rate route
substitutes 1500, and these differ. -/
theorem claim_C1_counterexample :
    (MatchRoute.buildMatchItems envZero [⟨1, some ⟨1, "A", none⟩⟩] []).map
        MatchRoute.MatchItem.rating = [MatchRoute.DEFAULT_RATING] ∧
    (RateRoute.existingOrDefault (fun _ => none) 1).rating = RateRoute.BASE_RATING ∧
    ((MatchRoute.DEFAULT_RATING : ℚ) : ℝ) ≠ RateRoute.BASE_RATING := by
  refine ⟨by decide, rfl, ?_⟩
  norm_num [MatchRoute.DEFAULT_RATING, RateRoute.BASE_RATING]

/-- Claim C1 amended: each flow is internally consistent: the group match
selection default equals the SQL update default (1200), and the
comparisons route selection default equals the rate route update default
(1500); the two flows use different bases. -/
theorem claim_C1_amended :
    (MatchRoute.buildMatchItems envZero [⟨1, some ⟨1, "A", none⟩⟩] []).map
        MatchRoute.MatchItem.rating = [MatchRoute.DEFAULT_RATING] ∧
    Sql.insertIfAbsent Sql.defaultBaseRating (fun _ => none) 1 1 =
      some ⟨((MatchRoute.DEFAULT_RATING : ℚ) : ℝ), 0⟩ ∧
    (ComparisonRoute.buildCandidates [(1, "A", none)] (fun _ => none)).map
        ComparisonRoute.Candidate.rating = [ComparisonRoute.BASE_RATING] ∧
    (RateRoute.existingOrDefault (fun _ => none) 1).rating =
      ((ComparisonRoute.BASE_RATING : ℚ) : ℝ) := by
  refine ⟨by decide, ?_, rfl, ?_⟩
  · simp only [Sql.insertIfAbsent, if_pos rfl, Option.getD_none]
    norm_num [Sql.defaultBaseRating, MatchRoute.DEFAULT_RATING,
      RateRoute.ExistingRating.mk.injEq]
  · show RateRoute.BASE_RATING = ((ComparisonRoute.BASE_RATING : ℚ) : ℝ)
    norm_num [RateRoute.BASE_RATING, ComparisonRoute.BASE_RATING]

/-- Claim C4 counterexample: a winner at 4000 against a loser at 1200
(both fresh, so K = 40, not a degenerate K = 0) keeps exactly the same
rating after the rounded update: the Elo increment 40/10000001 is below
half of the fourth decimal and rounds away, so equality occurs with a
non-zero K. -/
theorem claim_C4_counterexample :
    (RateRoute.updateRatings ⟨4000, 0⟩ ⟨1200, 0⟩).1.rating = 4000 ∧
    RateRoute.selectKFactor 0 = 40 ∧ (40 : ℚ) ≠ 0 := by
  refine ⟨?_, by decide, by norm_num⟩
  have hE : RateRoute.calculateExpectedScore 4000 1200 = 10000000 / 10000001 := by
    unfold RateRoute.calculateExpectedScore
    dsimp only
    have he : ((1200 : ℝ) - 4000) / 400 = ((-7 : ℤ) : ℝ) := by norm_num
    rw [he, Real.rpow_intCast]
    norm_num [zpow_neg]
  have hstep : (RateRoute.updateRatings ⟨4000, 0⟩ ⟨1200, 0⟩).1.rating =
      RateRoute.roundRating (4000 + ((RateRoute.selectKFactor 0 : ℚ) : ℝ) *
        (1 - RateRoute.calculateExpectedScore 4000 1200)) := rfl
  rw [hstep, hE]
  have hk : ((RateRoute.selectKFactor 0 : ℚ) : ℝ) = 40 := by
    norm_num [RateRoute.selectKFactor]
  rw [hk]
  unfold RateRoute.roundRating
  have hx : ((4000 : ℝ) + 40 * (1 - 10000000 / 10000001)) * 10000 =
      40000000 + 400000 / 10000001 := by norm_num
  rw [hx]
  have hr : round ((40000000 : ℝ) + 400000 / 10000001) = 40000000 := by
    rw [round_eq]
    rw [Int.floor_eq_iff]
    constructor <;> norm_num
  rw [hr]
  norm_num

/-- Claim C4 amended: for stored rating states (4-decimal fixed-point
values, as every persisted rating is), the rounded update never lowers
the winner rating and never raises the loser rating; but equality is
possible even though K is always 40, 20 or 10, because a sufficiently
small Elo increment is absorbed by the 4-decimal rounding. -/
theorem claim_C4_amended (winner loser : RateRoute.ExistingRating)
    (hw : ∃ n : ℤ, winner.rating * 10000 = n)
    (hl : ∃ n : ℤ, loser.rating * 10000 = n) :
    winner.rating ≤ (RateRoute.updateRatings winner loser).1.rating ∧
    (RateRoute.updateRatings winner loser).2.rating ≤ loser.rating := by
  obtain ⟨nw, hnw⟩ := hw
  obtain ⟨nl, hnl⟩ := hl
  have hEw := calculateExpectedScore_mem_Ioo winner.rating loser.rating
  have hEl := calculateExpectedScore_mem_Ioo loser.rating winner.rating
  have hKw : (0 : ℝ) < ((RateRoute.selectKFactor winner.comparisonCount : ℚ) : ℝ) := by
    exact_mod_cast selectKFactor_pos winner.comparisonCount
  have hKl : (0 : ℝ) < ((RateRoute.selectKFactor loser.comparisonCount : ℚ) : ℝ) := by
    exact_mod_cast selectKFactor_pos loser.comparisonCount
  constructor
  · have hδ : 0 ≤ ((RateRoute.selectKFactor winner.comparisonCount : ℚ) : ℝ) *
        (1 - RateRoute.calculateExpectedScore winner.rating loser.rating) := by
      have h1 : 0 ≤ 1 - RateRoute.calculateExpectedScore winner.rating loser.rating := by
        have := hEw.2
        linarith
      positivity
    exact roundRating_ge_of_fixedPoint winner.rating _ nw hnw hδ
  · have hδ : ((RateRoute.selectKFactor loser.comparisonCount : ℚ) : ℝ) *
        (0 - RateRoute.calculateExpectedScore loser.rating winner.rating) ≤ 0 := by
      have h1 : 0 - RateRoute.calculateExpectedScore loser.rating winner.rating ≤ 0 := by
        have := hEl.1
        linarith
      exact mul_nonpos_of_nonneg_of_nonpos (le_of_lt hKl) h1
    exact roundRating_le_of_fixedPoint loser.rating _ nl hnl hδ

/-- Claim C4 witness: the amended theorem at two fresh 1200-rated states.
-/
theorem claim_C4_witness :
    (1200 : ℝ) ≤ (RateRoute.updateRatings ⟨1200, 0⟩ ⟨1200, 0⟩).1.rating ∧
    (RateRoute.updateRatings ⟨1200, 0⟩ ⟨1200, 0⟩).2.rating ≤ 1200 :=
  claim_C4_amended ⟨1200, 0⟩ ⟨1200, 0⟩ ⟨12000000, by norm_num⟩
    ⟨12000000, by norm_num⟩

/-- Reduction of `chooseMatchup` to the cold-start branch. -/
theorem chooseMatchup_cold_branch (items : List MatchRoute.MatchItem) (u : ℕ → ℚ)
    (h2 : 2 ≤ items.length)
    (hlow : 2 ≤ (items.filter
      (fun item => item.comparisonCount < MatchRoute.MIN_NEW_ITEM_COMPARISONS)).length) :
    MatchRoute.chooseMatchup items u =
      (MatchRoute.selectRandomPair
        (items.filter
          (fun item => item.comparisonCount < MatchRoute.MIN_NEW_ITEM_COMPARISONS))
        (u 0) (u 1), 2) := by
  unfold MatchRoute.chooseMatchup
  rw [if_neg (by omega)]
  dsimp only
  rw [if_pos hlow]

/-- Claim C3: whenever at least two items sit below the cold-start
threshold of 5 comparisons, every outcome of the random draws selects a
pair of two low-history items with distinct ids (distinctness needs the
ids of the input to be duplicate-free, which group membership rows
guarantee). -/
theorem claim_C3_cold_start (items : List MatchRoute.MatchItem) (u : ℕ → ℚ)
    (hu0 : 0 ≤ u 0) (hu0' : u 0 < 1) (hu1 : 0 ≤ u 1) (hu1' : u 1 < 1)
    (hnd : (items.map MatchRoute.MatchItem.itemId).Nodup)
    (hlow : 2 ≤ (items.filter
      (fun item => item.comparisonCount < MatchRoute.MIN_NEW_ITEM_COMPARISONS)).length) :
    (∃ a b, (MatchRoute.chooseMatchup items u).1 = some (a, b) ∧
      a ∈ items.filter
        (fun item => item.comparisonCount < MatchRoute.MIN_NEW_ITEM_COMPARISONS) ∧
      b ∈ items.filter
        (fun item => item.comparisonCount < MatchRoute.MIN_NEW_ITEM_COMPARISONS) ∧
      a.itemId ≠ b.itemId) ∧
    MatchRoute.MIN_NEW_ITEM_COMPARISONS = 5 := by
  have h2 : 2 ≤ items.length :=
    le_trans hlow (List.length_filter_le _ items)
  have hndlow : ((items.filter
      (fun item => item.comparisonCount < MatchRoute.MIN_NEW_ITEM_COMPARISONS)).map
        MatchRoute.MatchItem.itemId).Nodup :=
    List.Nodup.sublist (List.Sublist.map _ (List.filter_sublist items)) hnd
  obtain ⟨a, b, heq, ha, hb, hne⟩ :=
    selectRandomPair_mem
      (items.filter
        (fun item => item.comparisonCount < MatchRoute.MIN_NEW_ITEM_COMPARISONS))
      (u 0) (u 1) hu0 hu0' hu1 hu1' hlow
  refine ⟨⟨a, b, ?_, ha, hb, hne hndlow⟩, rfl⟩
  rw [chooseMatchup_cold_branch items u h2 hlow]
  exact heq

/-- Claim C3 witness: a concrete group with two cold-start items and one
established item, with all draws at one half. -/
theorem claim_C3_witness :
    (∃ a b,
      (MatchRoute.chooseMatchup
        [⟨1, "A", none, 1200, 0⟩, ⟨2, "B", none, 1300, 1⟩, ⟨3, "C", none, 1250, 10⟩]
        (fun _ => 1 / 2)).1 = some (a, b) ∧
      a ∈ List.filter
        (fun item => item.comparisonCount < MatchRoute.MIN_NEW_ITEM_COMPARISONS)
        [⟨1, "A", none, 1200, 0⟩, ⟨2, "B", none, 1300, 1⟩, ⟨3, "C", none, 1250, 10⟩] ∧
      b ∈ List.filter
        (fun item => item.comparisonCount < MatchRoute.MIN_NEW_ITEM_COMPARISONS)
        [⟨1, "A", none, 1200, 0⟩, ⟨2, "B", none, 1300, 1⟩, ⟨3, "C", none, 1250, 10⟩] ∧
      a.itemId ≠ b.itemId) ∧
    MatchRoute.MIN_NEW_ITEM_COMPARISONS = 5 :=
  claim_C3_cold_start
    [⟨1, "A", none, 1200, 0⟩, ⟨2, "B", none, 1300, 1⟩, ⟨3, "C", none, 1250, 10⟩]
    (fun _ => 1 / 2) (by norm_num) (by norm_num) (by norm_num) (by norm_num)
    (by decide) (by decide)

/-- A draw in [0, 1) scaled to a pool of one element indexes it. -/
theorem randomIndex_one (u : ℚ) (h₀ : 0 ≤ u) (h₁ : u < 1) :
    MatchRoute.randomIndex u 1 = 0 := by
  unfold MatchRoute.randomIndex
  have : ⌊u * ((1 : ℕ) : ℚ)⌋ = 0 := by
    rw [Int.floor_eq_zero_iff, Set.mem_Ico]
    push_cast
    constructor
    · linarith
    · linarith
  rw [this]
  rfl

/-- A draw in [0, 1) scaled to a pool of two elements indexes one of
them. -/
theorem randomIndex_two (u : ℚ) (h₀ : 0 ≤ u) (h₁ : u < 1) :
    MatchRoute.randomIndex u 2 = 0 ∨ MatchRoute.randomIndex u 2 = 1 := by
  unfold MatchRoute.randomIndex
  rcases lt_or_le (u * 2) 1 with h | h
  · left
    have : ⌊u * ((2 : ℕ) : ℚ)⌋ = 0 := by
      rw [Int.floor_eq_zero_iff, Set.mem_Ico]
      push_cast
      constructor
      · positivity
      · exact h
    rw [this]
    rfl
  · right
    have : ⌊u * ((2 : ℕ) : ℚ)⌋ = 1 := by
      rw [Int.floor_eq_iff]
      push_cast
      constructor
      · exact h
      · nlinarith
    rw [this]
    rfl

/-- On a two-element list, `selectRandomPair` returns the two elements in
one of the two orders. -/
theorem selectRandomPair_pair (a b : MatchRoute.MatchItem) (u₀ u₁ : ℚ)
    (h₀ : 0 ≤ u₀) (h₀' : u₀ < 1) (h₁ : 0 ≤ u₁) (h₁' : u₁ < 1) :
    MatchRoute.selectRandomPair [a, b] u₀ u₁ = some (a, b) ∨
    MatchRoute.selectRandomPair [a, b] u₀ u₁ = some (b, a) := by
  unfold MatchRoute.selectRandomPair
  rw [show ([a, b] : List MatchRoute.MatchItem).length = 2 from rfl]
  dsimp only
  rcases randomIndex_two u₀ h₀ h₀' with h | h
  · left
    rw [h]
    rw [show (([a, b] : List MatchRoute.MatchItem).eraseIdx 0).length = 1 from rfl]
    rw [randomIndex_one u₁ h₁ h₁']
    rfl
  · right
    rw [h]
    rw [show (([a, b] : List MatchRoute.MatchItem).eraseIdx 1).length = 1 from rfl]
    rw [randomIndex_one u₁ h₁ h₁']
    rfl

/-- A zero draw always indexes the first pool element. -/
theorem randomIndex_zero (n : ℕ) : MatchRoute.randomIndex 0 n = 0 := by
  unfold MatchRoute.randomIndex
  simp

/-- The draw three quarters indexes the second element of a two-element
pool. -/
theorem randomIndex_three_quarters_two : MatchRoute.randomIndex (3 / 4) 2 = 1 := by
  unfold MatchRoute.randomIndex
  push_cast
  norm_num

/-- Claim C6 counterexample: with exactly two fresh items the selector
still consumes two random draws, and the drawn values determine the
orientation of the returned pair, so randomness is consumed and used. -/
theorem claim_C6_counterexample :
    (MatchRoute.chooseMatchup
        [⟨1, "A", none, 1200, 0⟩, ⟨2, "B", none, 1300, 0⟩] (fun _ => 0)).2 = 2 ∧
    (MatchRoute.chooseMatchup
        [⟨1, "A", none, 1200, 0⟩, ⟨2, "B", none, 1300, 0⟩] (fun _ => 0)).1 =
      some (⟨1, "A", none, 1200, 0⟩, ⟨2, "B", none, 1300, 0⟩) ∧
    (MatchRoute.chooseMatchup
        [⟨1, "A", none, 1200, 0⟩, ⟨2, "B", none, 1300, 0⟩]
        (fun n => if n = 0 then 3 / 4 else 0)).1 =
      some (⟨2, "B", none, 1300, 0⟩, ⟨1, "A", none, 1200, 0⟩) := by
  have hbranch₀ := chooseMatchup_cold_branch
    [⟨1, "A", none, 1200, 0⟩, ⟨2, "B", none, 1300, 0⟩] (fun _ => 0)
    (by decide) (by decide)
  have hbranch₁ := chooseMatchup_cold_branch
    [⟨1, "A", none, 1200, 0⟩, ⟨2, "B", none, 1300, 0⟩]
    (fun n => if n = 0 then 3 / 4 else 0) (by decide) (by decide)
  have hfil : List.filter
      (fun item => item.comparisonCount < MatchRoute.MIN_NEW_ITEM_COMPARISONS)
      [(⟨1, "A", none, 1200, 0⟩ : MatchRoute.MatchItem), ⟨2, "B", none, 1300, 0⟩] =
      [⟨1, "A", none, 1200, 0⟩, ⟨2, "B", none, 1300, 0⟩] := by decide
  refine ⟨by rw [hbranch₀], ?_, ?_⟩
  · rw [hbranch₀, hfil]
    show MatchRoute.selectRandomPair
      [⟨1, "A", none, 1200, 0⟩, ⟨2, "B", none, 1300, 0⟩] 0 0 = _
    unfold MatchRoute.selectRandomPair
    dsimp only
    rw [randomIndex_zero]
    rw [randomIndex_zero]
    rfl
  · rw [hbranch₁, hfil]
    show MatchRoute.selectRandomPair
      [⟨1, "A", none, 1200, 0⟩, ⟨2, "B", none, 1300, 0⟩] (3 / 4) 0 = _
    unfold MatchRoute.selectRandomPair
    dsimp only
    rw [show ([(⟨1, "A", none, 1200, 0⟩ : MatchRoute.MatchItem),
      ⟨2, "B", none, 1300, 0⟩] : List MatchRoute.MatchItem).length = 2 from rfl]
    rw [randomIndex_three_quarters_two]
    rw [randomIndex_zero]
    rfl

/-- Claim C6 amended: with exactly two items, every outcome of the random
draws yields the unique unordered pair, in one of the two orientations;
the implementation still consumes draws (two in the cold-start branch,
one otherwise), which can only affect the orientation. -/
theorem claim_C6_amended (a b : MatchRoute.MatchItem) (u : ℕ → ℚ)
    (hu0 : 0 ≤ u 0) (hu0' : u 0 < 1) (hu1 : 0 ≤ u 1) (hu1' : u 1 < 1) :
    (MatchRoute.chooseMatchup [a, b] u).1 = some (a, b) ∨
    (MatchRoute.chooseMatchup [a, b] u).1 = some (b, a) := by
  unfold MatchRoute.chooseMatchup
  rw [if_neg (by simp)]
  dsimp only
  by_cases hpa : a.comparisonCount < MatchRoute.MIN_NEW_ITEM_COMPARISONS <;>
    by_cases hpb : b.comparisonCount < MatchRoute.MIN_NEW_ITEM_COMPARISONS
  · have hfil : List.filter
        (fun item => item.comparisonCount < MatchRoute.MIN_NEW_ITEM_COMPARISONS)
        [a, b] = [a, b] := by
      simp [List.filter_cons, hpa, hpb]
    rw [hfil]
    rw [if_pos (by simp)]
    exact selectRandomPair_pair a b (u 0) (u 1) hu0 hu0' hu1 hu1'
  all_goals
    have hfil : (List.filter
        (fun item => item.comparisonCount < MatchRoute.MIN_NEW_ITEM_COMPARISONS)
        [a, b]).length ≤ 1 := by
      simp [List.filter_cons, hpa, hpb]
  all_goals
    rw [if_neg (by omega)]
    by_cases hexp : u 0 < MatchRoute.DISCOVERY_MATCH_PROBABILITY
  all_goals
    first
      | (rw [if_pos hexp]; left; rfl)
      | (rw [if_neg hexp]; left; rfl)

/-- With at least two items the discovery pair exists. -/
theorem selectDiscoveryPair_isSome (items : List MatchRoute.MatchItem)
    (h2 : 2 ≤ items.length) :
    (MatchRoute.selectDiscoveryPair items).isSome = true := by
  unfold MatchRoute.selectDiscoveryPair
  by_cases hle : items.length ≤ 2
  · rw [if_pos hle]
    obtain ⟨x, y, rfl⟩ := List.length_eq_two.mp (le_antisymm hle h2)
    rfl
  · rw [if_neg hle]
    have hs2 : 2 ≤ (MatchRoute.sortByRating items).length := by
      unfold MatchRoute.sortByRating
      rw [List.length_mergeSort]
      omega
    obtain ⟨x, y, t, hst⟩ := exists_cons_cons _ hs2
    rw [hst]
    have hlast : (x :: y :: t).getLast?.isSome = true :=
      List.getLast?_isSome.mpr (by simp)
    obtain ⟨z, hz⟩ := Option.isSome_iff_exists.mp hlast
    rw [show (x :: y :: t).head? = some x from rfl, hz]
    rfl

/-- With at least two items the adjacent pair exists. -/
theorem selectAdjacentByRating_isSome (items : List MatchRoute.MatchItem)
    (h2 : 2 ≤ items.length) :
    (MatchRoute.selectAdjacentByRating items).isSome = true := by
  unfold MatchRoute.selectAdjacentByRating
  by_cases hle : items.length ≤ 2
  · rw [if_pos hle]
    obtain ⟨x, y, rfl⟩ := List.length_eq_two.mp (le_antisymm hle h2)
    rfl
  · rw [if_neg hle]
    have hs2 : 2 ≤ (MatchRoute.sortByRating items).length := by
      unfold MatchRoute.sortByRating
      rw [List.length_mergeSort]
      omega
    obtain ⟨x, y, t, hst⟩ := exists_cons_cons _ hs2
    rw [hst]
    rfl

/-- With at least two items and in-range draws, `chooseMatchup` always
produces a pair. -/
theorem chooseMatchup_isSome (items : List MatchRoute.MatchItem) (u : ℕ → ℚ)
    (hu0 : 0 ≤ u 0) (hu0' : u 0 < 1) (hu1 : 0 ≤ u 1) (hu1' : u 1 < 1)
    (h2 : 2 ≤ items.length) :
    ((MatchRoute.chooseMatchup items u).1).isSome = true := by
  unfold MatchRoute.chooseMatchup
  rw [if_neg (by omega)]
  dsimp only
  by_cases hlow : 2 ≤ (items.filter
      (fun item => item.comparisonCount < MatchRoute.MIN_NEW_ITEM_COMPARISONS)).length
  · rw [if_pos hlow]
    obtain ⟨a, b, heq, -, -, -⟩ :=
      selectRandomPair_mem _ (u 0) (u 1) hu0 hu0' hu1 hu1' hlow
    dsimp only
    rw [heq]
    rfl
  · rw [if_neg hlow]
    by_cases hexp : u 0 < MatchRoute.DISCOVERY_MATCH_PROBABILITY
    · rw [if_pos hexp]
      exact selectDiscoveryPair_isSome items h2
    · rw [if_neg hexp]
      exact selectAdjacentByRating_isSome items h2

/-- In a list of length at least two with duplicate-free ids, some member
has an id different from any given id. -/
theorem exists_mem_ne_id (cands : List ComparisonRoute.Candidate)
    (h2 : 2 ≤ cands.length)
    (hnd : (cands.map ComparisonRoute.Candidate.id).Nodup)
    (x : ComparisonRoute.Candidate) :
    ∃ y ∈ cands, y.id ≠ x.id := by
  obtain ⟨a, b, t, rfl⟩ := exists_cons_cons cands h2
  have hab : a.id ≠ b.id := by
    simp only [List.map_cons, List.nodup_cons, List.mem_cons] at hnd
    exact fun h => hnd.1 (Or.inl h)
  by_cases hxa : x.id = a.id
  · refine ⟨b, by simp, ?_⟩
    rw [hxa]
    exact fun h => hab h.symm
  · exact ⟨a, by simp, fun h => hxa h.symm⟩

/-- With at least two distinct-id candidates and an in-range draw, the
comparisons route selector always produces a pair. -/
theorem selectMatchup_isSome (cands : List ComparisonRoute.Candidate) (u₀ : ℚ)
    (h₀ : 0 ≤ u₀) (h₁ : u₀ < 1) (h2 : 2 ≤ cands.length)
    (hnd : (cands.map ComparisonRoute.Candidate.id).Nodup) :
    (ComparisonRoute.selectMatchup cands u₀).isSome = true := by
  unfold ComparisonRoute.selectMatchup
  rw [if_neg (by omega)]
  dsimp only
  have hsl : (cands.mergeSort ComparisonRoute.candidateLe).length = cands.length :=
    List.length_mergeSort cands
  set sorted := cands.mergeSort ComparisonRoute.candidateLe with hsorted
  set pool := sorted.take (min 5 sorted.length) with hpooldef
  have hpl : pool.length = min 5 cands.length := by
    rw [hpooldef, List.length_take, hsl]
    omega
  have hppos : 0 < pool.length := by omega
  have hfi : MatchRoute.randomIndex u₀ pool.length < pool.length :=
    randomIndex_lt _ _ h₀ h₁ hppos
  rw [List.getElem?_eq_getElem hfi]
  dsimp only
  obtain ⟨y, hy, hyne⟩ := exists_mem_ne_id cands h2 hnd
    pool[MatchRoute.randomIndex u₀ pool.length]
  have hymem : y ∈ cands.filter
      (fun item => item.id ≠ pool[MatchRoute.randomIndex u₀ pool.length].id) :=
    List.mem_filter.mpr ⟨hy, by simp [hyne]⟩
  cases hflt : cands.filter
      (fun item => item.id ≠ pool[MatchRoute.randomIndex u₀ pool.length].id) with
  | nil =>
      rw [hflt] at hymem
      simp at hymem
  | cons c rest =>
      rfl

/-- Claim C7 counterexample: a two-element candidate list whose entries
share one id makes the comparisons route selector return none, so a list
of two items does not guarantee a pair. -/
theorem claim_C7_counterexample :
    ([⟨1, "A", none, 1500, 0⟩, ⟨1, "B", none, 1400, 1⟩] :
      List ComparisonRoute.Candidate).length = 2 ∧
    ComparisonRoute.selectMatchup
      [⟨1, "A", none, 1500, 0⟩, ⟨1, "B", none, 1400, 1⟩] 0 = none := by
  refine ⟨rfl, ?_⟩
  unfold ComparisonRoute.selectMatchup
  rw [if_neg (by decide)]
  dsimp only
  rw [randomIndex_zero]
  have hsl : (([⟨1, "A", none, 1500, 0⟩, ⟨1, "B", none, 1400, 1⟩] :
      List ComparisonRoute.Candidate).mergeSort ComparisonRoute.candidateLe).length = 2 := by
    rw [List.length_mergeSort]
    rfl
  obtain ⟨x, y, hxy⟩ := List.length_eq_two.mp hsl
  have hx1 : x.id = 1 := by
    have hperm := List.mergeSort_perm
      ([⟨1, "A", none, 1500, 0⟩, ⟨1, "B", none, 1400, 1⟩] :
        List ComparisonRoute.Candidate) ComparisonRoute.candidateLe
    rw [hxy] at hperm
    have hx : x ∈ ([⟨1, "A", none, 1500, 0⟩, ⟨1, "B", none, 1400, 1⟩] :
        List ComparisonRoute.Candidate) := hperm.subset (by simp)
    rcases List.mem_cons.mp hx with h | h
    · rw [h]
    · rcases List.mem_cons.mp h with h' | h'
      · rw [h']
      · simp at h'
  rw [hxy]
  rw [show (List.take
      (min 5 ([x, y] : List ComparisonRoute.Candidate).length) [x, y])[0]? =
    some x from rfl]
  dsimp only
  have hfil : List.filter (fun item => item.id ≠ x.id)
      ([⟨1, "A", none, 1500, 0⟩, ⟨1, "B", none, 1400, 1⟩] :
        List ComparisonRoute.Candidate) = [] := by
    simp [List.filter, hx1]
  rw [hfil]

/-- Claim C7 amended: both selectors return none below two items and
always return a pair on two or more items, provided the draws are in
[0, 1) and (for the comparisons route, whose opponent filter works by id)
the item ids are pairwise distinct, as the group-items primary key
guarantees. -/
theorem claim_C7_amended :
    (∀ (items : List MatchRoute.MatchItem) (u : ℕ → ℚ),
      items.length < 2 → (MatchRoute.chooseMatchup items u).1 = none) ∧
    (∀ (items : List MatchRoute.MatchItem) (u : ℕ → ℚ),
      0 ≤ u 0 → u 0 < 1 → 0 ≤ u 1 → u 1 < 1 → 2 ≤ items.length →
      ((MatchRoute.chooseMatchup items u).1).isSome = true) ∧
    (∀ (cands : List ComparisonRoute.Candidate) (u₀ : ℚ),
      cands.length < 2 → ComparisonRoute.selectMatchup cands u₀ = none) ∧
    (∀ (cands : List ComparisonRoute.Candidate) (u₀ : ℚ),
      0 ≤ u₀ → u₀ < 1 → 2 ≤ cands.length →
      (cands.map ComparisonRoute.Candidate.id).Nodup →
      (ComparisonRoute.selectMatchup cands u₀).isSome = true) := by
  refine ⟨?_, ?_, ?_, ?_⟩
  · intro items u h
    unfold MatchRoute.chooseMatchup
    rw [if_pos h]
  · intro items u h0 h0' h1 h1' h2
    exact chooseMatchup_isSome items u h0 h0' h1 h1' h2
  · intro cands u₀ h
    unfold ComparisonRoute.selectMatchup
    rw [if_pos h]
  · intro cands u₀ h0 h1 h2 hnd
    exact selectMatchup_isSome cands u₀ h0 h1 h2 hnd

/-- Claim C7 witness: the four parts at concrete lists. -/
theorem claim_C7_witness :
    (MatchRoute.chooseMatchup
      ([⟨1, "A", none, 1200, 0⟩] : List MatchRoute.MatchItem) (fun _ => 0)).1 =
        none ∧
    ((MatchRoute.chooseMatchup
      [⟨1, "A", none, 1200, 0⟩, ⟨2, "B", none, 1300, 9⟩] (fun _ => 0)).1).isSome =
        true ∧
    ComparisonRoute.selectMatchup
      ([⟨1, "A", none, 1500, 0⟩] : List ComparisonRoute.Candidate) 0 = none ∧
    (ComparisonRoute.selectMatchup
      [⟨1, "A", none, 1500, 0⟩, ⟨2, "B", none, 1400, 2⟩] 0).isSome = true :=
  ⟨claim_C7_amended.1 _ _ (by decide),
    claim_C7_amended.2.1 _ _ (by norm_num) (by norm_num) (by norm_num)
      (by norm_num) (by decide),
    claim_C7_amended.2.2.1 _ _ (by decide),
    claim_C7_amended.2.2.2 _ _ (by norm_num) (by norm_num) (by decide) (by decide)⟩

/-- Claim C6 witness: the amended theorem at two concrete items and the
constant zero draw stream. -/
theorem claim_C6_witness :
    (MatchRoute.chooseMatchup
        [⟨1, "A", none, 1200, 3⟩, ⟨2, "B", none, 1300, 9⟩] (fun _ => 0)).1 =
      some (⟨1, "A", none, 1200, 3⟩, ⟨2, "B", none, 1300, 9⟩) ∨
    (MatchRoute.chooseMatchup
        [⟨1, "A", none, 1200, 3⟩, ⟨2, "B", none, 1300, 9⟩] (fun _ => 0)).1 =
      some (⟨2, "B", none, 1300, 9⟩, ⟨1, "A", none, 1200, 3⟩) :=
  claim_C6_amended ⟨1, "A", none, 1200, 3⟩ ⟨2, "B", none, 1300, 9⟩ (fun _ => 0)
    (by norm_num) (by norm_num) (by norm_num) (by norm_num)

end MovieElo
